import Mathlib

/-!
VoiceVault: the recording / upload / save workflow of `src/App.jsx`.

A shallow embedding of the component state of `App` and of its handlers
`startRec`, `stopRec`, `save`, `del`, `loadData` and of the disabled / rendered
guards of the controls of the "new entry" view.

Conventions of the embedding.

* React state is one record `State`; a handler is a function on `State`.
  A handler reads the values of the render in which it was created; handlers
  that suspend (`await`) are cut at the suspension point, and what the
  continuation closes over is stored with the pending continuation.
* Replies of the hosted backend are inputs: `Reply.ok`, `Reply.error m` (the
  promise resolves to an object whose `error` field is set) and
  `Reply.thrown m` (the promise rejects).
* Calls to collaborators and to `alert` / `confirm` are recorded, in order, in
  a `List Call`.
* `Date.now()` is an input `now : Nat`; the body of a chunk is a list of bytes.
-/

namespace VoiceVault

/-! ## Data -/

/-- The `File` picked in the file input; the code reads `name` and `size`. -/
structure AudioFile where
  name : String
  size : Nat
deriving DecidableEq, Repr

/-- One `e.data` delivered to `ondataavailable`. -/
abbrev Chunk := List Nat

/-- The value of `new Blob(chunks, { type })`. -/
structure AudioBlob where
  parts : List Chunk
  type : String
deriving DecidableEq, Repr

/-- The `size` of a blob: the bytes of all its parts. -/
def AudioBlob.size (b : AudioBlob) : Nat := (b.parts.map List.length).sum

/-- The object held in `newEntry` (lines 35-40). -/
structure Draft where
  title : String
  tags : String
  file : Option AudioFile
  blob : Option AudioBlob
deriving DecidableEq, Repr

/-- The literal `{ title: '', tags: '', file: null, blob: null }`. -/
def emptyDraft : Draft := { title := "", tags := "", file := none, blob := none }

/-- The values of `view`. -/
inductive View where
  | dashboard
  | new
  | play
deriving DecidableEq, Repr

/-- A row of the `entries` table as read back by `loadData`. -/
structure Entry where
  id : Nat
  user_id : String
  title : String
  audio_url : String
  audio_filename : String
  file_size : Nat
  duration : Nat
deriving DecidableEq, Repr

/-- The object passed to `insert` (lines 181-188). -/
structure Row where
  user_id : String
  title : String
  audio_url : String
  audio_filename : String
  file_size : Nat
  duration : Nat
deriving DecidableEq, Repr

/-- The body handed to `upload`: `newEntry.file || newEntry.blob`. -/
inductive Payload where
  | file (f : AudioFile)
  | blob (b : AudioBlob)
deriving DecidableEq, Repr

/-- The `size` read from the upload body (`f.size`). -/
def Payload.size : Payload → Nat
  | .file f => f.size
  | .blob b => b.size

/-- Calls that leave the component, in the order they are issued. -/
inductive Call where
  | upload (key : String) (body : Option Payload)
  | getPublicUrl (key : String)
  | insert (row : Row)
  | remove (keys : List String)
  | deleteRow (id : Nat)
  | selectEntries
  | selectPrompt
  | selectProfile (userId : String)
  | confirm (message : String)
  | alert (message : String)
deriving DecidableEq, Repr

/-- How an awaited backend call settles. -/
inductive Reply where
  | ok
  | error (message : String)
  | thrown (message : String)
deriving DecidableEq, Repr

/-- How an awaited `select` settles: with `data` (possibly `null`) or by rejecting. -/
inductive Fetched (α : Type) where
  | data (d : Option α)
  | thrown (message : String)
deriving Repr

/-- The three replies consumed by one run of `loadData`. -/
structure LoadReplies where
  entries : Fetched (List Entry)
  prompts : Fetched (List String)
  profile : Fetched (Option Nat)

/-- One audio track of a microphone stream. -/
structure Track where
  stopped : Bool
deriving DecidableEq, Repr

/-- The `state` of a `MediaRecorder`. -/
inductive RecState where
  | recording
  | inactive
deriving DecidableEq, Repr

/-- A `MediaRecorder` created by `startRec` (lines 130-140) together with what
its callbacks close over: the acquired `stream`, the `chunks` array and the
`newEntry` of the render in which `startRec` was created. -/
structure Recorder where
  tracks : List Track
  chunks : List Chunk
  state : RecState
  stopQueued : Bool
  snap : Draft
deriving DecidableEq, Repr

/-- Component state (lines 11-40) and the platform objects the handlers created. -/
structure State where
  user : Option String
  view : View
  isRecording : Bool
  loading : Bool
  entries : List Entry
  prompt : String
  storage : Nat
  recorder : Option Nat
  time : Nat
  interval : Option Nat
  newEntry : Draft
  recs : List Recorder
  pendingMic : List Draft
  timers : List Nat
  nextTimer : Nat
deriving DecidableEq, Repr

/-- The state of the first render for a signed-in or signed-out user. -/
def initState (user : Option String) : State :=
  { user := user, view := .dashboard, isRecording := false, loading := false,
    entries := [], prompt := "What made you smile today?", storage := 0,
    recorder := none, time := 0, interval := none, newEntry := emptyDraft,
    recs := [], pendingMic := [], timers := [], nextTimer := 0 }

/-! ## `loadData` (lines 60-90) -/

/-- The body of `loadData`: three awaited selects inside one `try`; a rejection
is caught and logged, so the function never throws. -/
def loadData (s : State) (ld : LoadReplies) : State × List Call :=
  match ld.entries with
  | .thrown _ => (s, [.selectEntries])
  | .data es =>
    let s1 := { s with entries := es.getD [] }
    match ld.prompts with
    | .thrown _ => (s1, [.selectEntries, .selectPrompt])
    | .data ps =>
      let s2 := match ps with
        | some (t :: _) => { s1 with prompt := t }
        | _ => s1
      match s.user with
      | none => (s2, [.selectEntries, .selectPrompt])
      | some uid =>
        match ld.profile with
        | .thrown _ => (s2, [.selectEntries, .selectPrompt, .selectProfile uid])
        | .data none => (s2, [.selectEntries, .selectPrompt, .selectProfile uid])
        | .data (some used) =>
          ({ s2 with storage := used.getD 0 },
            [.selectEntries, .selectPrompt, .selectProfile uid])

/-! ## `save` (lines 158-202) -/

/-- The JavaScript `name.split('.')` on the characters of the name. -/
def splitChars (sep : Char) : List Char → List (List Char)
  | [] => [[]]
  | c :: cs =>
    if c = sep then [] :: splitChars sep cs
    else
      match splitChars sep cs with
      | [] => [[c]]
      | p :: ps => (c :: p) :: ps

/-- The expression `name.split('.').pop()` inside a template literal. -/
def extOf (name : String) : String :=
  match (splitChars '.' name.toList).getLast? with
  | some cs => String.mk cs
  | none => "undefined"

/-- The template literal of line 167. -/
def storageKey (userId : String) (now : Nat) (d : Draft) : String :=
  userId ++ "/" ++ toString now ++ "." ++
    (match d.file with
     | some f => extOf f.name
     | none => "webm")

/-- The expression `newEntry.file || newEntry.blob` of line 166. -/
def staged (d : Draft) : Option Payload :=
  match d.file with
  | some f => some (.file f)
  | none => d.blob.map .blob

/-- The condition of line 159: `!newEntry.title || (!newEntry.file && !newEntry.blob)`. -/
def saveRejects (d : Draft) : Bool :=
  (d.title == "") || (d.file.isNone && d.blob.isNone)

/-- The `disabled` expression of the Save button (line 461). -/
def saveDisabled (s : State) : Bool :=
  s.loading || (s.newEntry.title == "") || (s.newEntry.file.isNone && s.newEntry.blob.isNone)

/-- What one run of `save` receives from outside. -/
structure SaveEnv where
  now : Nat
  publicUrl : String → String
  upload : Reply
  insert : Reply
  load : LoadReplies

/-- The three setters of lines 192-194. -/
def saveCommitted (s : State) : State :=
  { s with newEntry := emptyDraft, time := 0, view := .dashboard }

/-- The `try` block of `save` (lines 165-196): the state it leaves, the calls it
made, and the message of the error it threw, if any. -/
def saveTry (s : State) (env : SaveEnv) : State × List Call × Option String :=
  let f := staged s.newEntry
  match s.user with
  | none => (s, [], some "user is null")
  | some uid =>
    let fn := storageKey uid env.now s.newEntry
    match env.upload with
    | .thrown m => (s, [.upload fn f], some m)
    | .error m => (s, [.upload fn f], some m)
    | .ok =>
      match f with
      | none => (s, [.upload fn f, .getPublicUrl fn], some "f is null")
      | some body =>
        let row : Row :=
          { user_id := uid, title := s.newEntry.title, audio_url := env.publicUrl fn,
            audio_filename := fn, file_size := body.size, duration := s.time }
        match env.insert with
        | .thrown m => (s, [.upload fn f, .getPublicUrl fn, .insert row], some m)
        | .error m => (s, [.upload fn f, .getPublicUrl fn, .insert row], some m)
        | .ok =>
          let r := loadData (saveCommitted s) env.load
          (r.1, [.upload fn f, .getPublicUrl fn, .insert row] ++ r.2 ++ [.alert "Saved!"], none)

/-- The handler `save`: validation, `setLoading(true)`, the `try` block, the
`catch` that alerts, and the `finally` that clears `loading`. -/
def save (s : State) (env : SaveEnv) : State × List Call :=
  if saveRejects s.newEntry then (s, [.alert "Add title and audio"])
  else
    match saveTry { s with loading := true } env with
    | (s1, calls, none) => ({ s1 with loading := false }, calls)
    | (s1, calls, some m) => ({ s1 with loading := false }, calls ++ [.alert ("Error: " ++ m)])

/-- A call that writes to the blob store or to the entries table. -/
def Call.isWrite : Call → Bool
  | .upload _ _ => true
  | .insert _ => true
  | .remove _ => true
  | .deleteRow _ => true
  | _ => false

/-! ## `startRec`, `stopRec` and the recorder callbacks (lines 128-156) -/

/-- How `navigator.mediaDevices.getUserMedia` settles: with a stream of live
tracks, or by rejecting. -/
inductive MicReply where
  | granted (tracks : Nat)
  | denied
deriving DecidableEq, Repr

/-- The handler `startRec` up to its `await` (line 130): the call is suspended
on `getUserMedia` and keeps the `newEntry` of the render that created it. -/
def startRecCall (s : State) : State :=
  { s with pendingMic := s.pendingMic ++ [s.newEntry] }

/-- The handler `startRec` from the point where the `i`-th suspended call
resumes (lines 130-147): on a stream, a recorder is created and started, then
`setRecorder`, `setIsRecording(true)`, `setTime(0)` and a new interval stored in
`interval.current`; on rejection the `catch` alerts. -/
def startRecResume (s : State) (i : Nat) (r : MicReply) : State × List Call :=
  match s.pendingMic[i]? with
  | none => (s, [])
  | some snap =>
    let s0 := { s with pendingMic := s.pendingMic.eraseIdx i }
    match r with
    | .denied => (s0, [.alert "Microphone access denied"])
    | .granted n =>
      let rc : Recorder :=
        { tracks := List.replicate n { stopped := false }, chunks := [],
          state := .recording, stopQueued := false, snap := snap }
      ({ s0 with
          recs := s0.recs ++ [rc],
          recorder := some s0.recs.length,
          isRecording := true,
          time := 0,
          interval := some s0.nextTimer,
          timers := s0.timers ++ [s0.nextTimer],
          nextTimer := s0.nextTimer + 1 }, [])

/-- The method `MediaRecorder.stop()`: an inactive recorder ignores it; a
recording one becomes inactive and its `stop` event is queued. -/
def Recorder.stop (rc : Recorder) : Recorder :=
  match rc.state with
  | .inactive => rc
  | .recording => { rc with state := .inactive, stopQueued := true }

/-- The call `clearInterval(id)`. -/
def clearInterval (timers : List Nat) : Option Nat → List Nat
  | none => timers
  | some t => timers.filter (fun x => x != t)

/-- The handler `stopRec` (lines 150-156). -/
def stopRec (s : State) : State :=
  match s.recorder with
  | none => s
  | some r =>
    { s with
        recs := s.recs.modify Recorder.stop r,
        isRecording := false,
        timers := clearInterval s.timers s.interval }

/-- The callback `rec.ondataavailable` of recorder `r` (line 134). -/
def ondataavailable (s : State) (r : Nat) (c : Chunk) : State :=
  { s with recs := s.recs.modify (fun rc => { rc with chunks := rc.chunks ++ [c] }) r }

/-- The statement `stream.getTracks().forEach(t => t.stop())` of line 137. -/
def stopTracks (rc : Recorder) : Recorder :=
  { rc with tracks := rc.tracks.map (fun _ => { stopped := true }) }

/-- The callback `rec.onstop` of recorder `r` (lines 135-138). `fault` is the
error raised while line 136 builds the blob and stages it, if any: the
callback then ends there, before line 137. -/
def onstop (s : State) (r : Nat) (fault : Option String) : State :=
  match s.recs[r]? with
  | none => s
  | some rc =>
    match fault with
    | some _ => s
    | none =>
      { s with
          newEntry := { rc.snap with blob := some { parts := rc.chunks, type := "audio/webm" } },
          recs := s.recs.modify stopTracks r }

/-! ## `del` (lines 204-224) -/

/-- What one run of `del` receives from outside. -/
structure DelEnv where
  confirmed : Bool
  remove : Reply
  deleteRow : Reply
  load : LoadReplies

/-- The `try` block of `del` (lines 208-220): the replies of `remove` and of
the row delete are awaited and dropped, so only a rejection leaves the block. -/
def delTry (s : State) (id : Nat) (env : DelEnv) : State × List Call × Option String :=
  match s.entries.find? (fun x => x.id == id) with
  | none => (s, [], some "entry is undefined")
  | some entry =>
    match env.remove with
    | .thrown m => (s, [.remove [entry.audio_filename]], some m)
    | _ =>
      match env.deleteRow with
      | .thrown m => (s, [.remove [entry.audio_filename], .deleteRow id], some m)
      | _ =>
        let r := loadData s env.load
        ({ r.1 with view := .dashboard },
          [.remove [entry.audio_filename], .deleteRow id] ++ r.2, none)

/-- The handler `del`: the confirmation, the `try` block, and the `catch` that
alerts. -/
def del (s : State) (id : Nat) (env : DelEnv) : State × List Call :=
  if !env.confirmed then (s, [.confirm "Delete?"])
  else
    match delTry s id env with
    | (s1, calls, none) => (s1, .confirm "Delete?" :: calls)
    | (s1, calls, some _) => (s1, .confirm "Delete?" :: calls ++ [.alert "Error deleting entry"])

/-- The call did not succeed: it resolved with an error or it rejected. -/
def Reply.failed : Reply → Bool
  | .ok => false
  | _ => true

/-! ## The controls of the "new entry" view (lines 381-467) and the `+` button -/

/-- The main interface is rendered only for a signed-in user (line 229). -/
def mainShown (s : State) : Bool := s.user.isSome

/-- The "new entry" view is on screen (line 381). -/
def newShown (s : State) : Bool := mainShown s && (s.view == .new)

/-- The `disabled` expression of the record button (line 409). -/
def recordDisabled (s : State) : Bool := s.newEntry.file.isSome || s.newEntry.blob.isSome

/-- The record button is rendered (line 402) and not disabled. -/
def recordEnabled (s : State) : Bool := newShown s && !s.isRecording && !recordDisabled s

/-- The Stop button is rendered (line 419). -/
def stopShown (s : State) : Bool := newShown s && s.isRecording

/-- The `disabled` expression of the file input (line 436). -/
def fileDisabled (s : State) : Bool := s.isRecording || s.newEntry.blob.isSome

/-- The file input is on screen and not disabled. -/
def fileEnabled (s : State) : Bool := newShown s && !fileDisabled s

/-- The Save button is on screen and not disabled. -/
def saveEnabled (s : State) : Bool := newShown s && !saveDisabled s

/-- The `onChange` of the file input (line 435); `f` is `e.target.files[0]`. -/
def chooseFile (s : State) (f : Option AudioFile) : State :=
  { s with newEntry := { s.newEntry with file := f } }

/-- The `onChange` of the title input (line 447). -/
def editTitle (s : State) (t : String) : State :=
  { s with newEntry := { s.newEntry with title := t } }

/-- The `onChange` of the tags input (line 454). -/
def editTags (s : State) (t : String) : State :=
  { s with newEntry := { s.newEntry with tags := t } }

/-- The `onClick` of Cancel (lines 386-390). -/
def cancel (s : State) : State :=
  { s with view := .dashboard, newEntry := emptyDraft, time := 0 }

/-- The `onClick` of the `+` button (line 548). -/
def openNew (s : State) : State := { s with view := .new }

/-- The interval callback `setTime(t => t + 1)` of line 144. -/
def tickTime (s : State) : State := { s with time := s.time + 1 }

/-! ## The workflow as a transition system -/

/-- What can happen to the component: a click or an edit on a control, or the
resumption of a suspended handler or platform callback. -/
inductive Event where
  | openNew
  | cancel
  | clickRecord
  | micSettled (i : Nat) (r : MicReply)
  | dataAvailable (r : Nat) (c : Chunk)
  | clickStop
  | recStopped (r : Nat) (fault : Option String)
  | chooseFile (f : Option AudioFile)
  | editTitle (t : String)
  | editTags (t : String)
  | clickSave
  | saveInserted
  | saveSettled
  | entriesLoaded (es : List Entry)
  | promptLoaded (p : String)
  | storageLoaded (n : Nat)
  | tick (id : Nat)
deriving Repr

/-- The state after an event. A control that is not rendered or is disabled
fires nothing; a callback runs only when the platform has it queued. The
continuation of `save` is cut at its awaits: `clickSave` runs lines 158-163,
`saveInserted` lines 192-194, `saveSettled` the `finally`, and the setters of
`loadData` are events of their own; they are enabled whenever they can be
pending, which admits every interleaving of the real continuations. -/
def step (s : State) : Event → State
  | .openNew => if mainShown s && (s.view == .dashboard) then openNew s else s
  | .cancel => if newShown s then cancel s else s
  | .clickRecord => if recordEnabled s then startRecCall s else s
  | .micSettled i r => (startRecResume s i r).1
  | .dataAvailable r c =>
    match s.recs[r]? with
    | some rc => if rc.state == .recording || rc.stopQueued then ondataavailable s r c else s
    | none => s
  | .clickStop => if stopShown s then stopRec s else s
  | .recStopped r fault =>
    match s.recs[r]? with
    | some rc =>
      if rc.stopQueued then
        onstop { s with recs := s.recs.modify (fun x => { x with stopQueued := false }) r } r fault
      else s
    | none => s
  | .chooseFile f => if fileEnabled s then chooseFile s f else s
  | .editTitle t => if newShown s then editTitle s t else s
  | .editTags t => if newShown s then editTags s t else s
  | .clickSave => if saveEnabled s then { s with loading := true } else s
  | .saveInserted => if s.loading then saveCommitted s else s
  | .saveSettled => if s.loading then { s with loading := false } else s
  | .entriesLoaded es => { s with entries := es }
  | .promptLoaded p => { s with prompt := p }
  | .storageLoaded n => { s with storage := n }
  | .tick id => if id ∈ s.timers then tickTime s else s

/-- The state after a sequence of events. -/
def run (s : State) (es : List Event) : State := es.foldl step s

/-- The states the workflow can be in, starting from the first render. -/
inductive Reachable (user : Option String) : State → Prop where
  | init : Reachable user (initState user)
  | step (s : State) (e : Event) : Reachable user s → Reachable user (step s e)

/-- The number of recorders that are recording. -/
def activeCaptures (s : State) : Nat :=
  (s.recs.filter (fun rc => rc.state == .recording)).length

/-- At most one of `file` and `blob` is set. -/
def Draft.exclusive (d : Draft) : Prop := d.file = none ∨ d.blob = none

instance (d : Draft) : Decidable d.exclusive := by
  unfold Draft.exclusive; infer_instance

/-! ## `fmt` (line 226)

JavaScript numbers are IEEE doubles. A non-negative integer-valued double is
represented by the natural number it equals (`toDouble n = n`); `/` rounds the
exact quotient to the nearest double, ties to even, `%` and `Math.floor` are
exact, and a number is rendered by `Number::toString`. -/

/-- The method `String.prototype.padStart(n, c)` for a one-character pad `c`:
a string shorter than `n` gets copies of `c` in front up to length `n`, a longer
one is returned as it is. -/
def padStart (t : String) (n : Nat) (c : Char) : String :=
  String.mk (List.replicate (n - t.length) c ++ t.toList)

/-- The number of binary digits of `n`, counted with `f` steps at most. -/
def bitsAux : Nat → Nat → Nat
  | 0, _ => 0
  | f + 1, n => if n = 0 then 0 else bitsAux f (n / 2) + 1

/-- The number of binary digits of `n`. -/
def bitLen (n : Nat) : Nat := bitsAux n n

/-- The integer nearest to `n / d`, the even one of two equally near. -/
def roundHalfEven (n d : Nat) : Nat :=
  if 2 * (n % d) < d then n / d
  else if d < 2 * (n % d) then n / d + 1
  else if (n / d) % 2 = 0 then n / d
  else n / d + 1

/-- The double nearest to the integer `n`: `n` itself up to 53 binary digits,
and `n` rounded to its 53 leading binary digits beyond. -/
def toDouble (n : Nat) : Nat :=
  if bitLen n ≤ 53 then n
  else roundHalfEven n (2 ^ (bitLen n - 53)) * 2 ^ (bitLen n - 53)

/-- The least `k` with `b ≤ a * 2 ^ k`, searched with `f` steps at most. -/
def leadShiftAux : Nat → Nat → Nat → Nat
  | 0, _, _ => 0
  | f + 1, a, b => if b ≤ a then 0 else leadShiftAux f (2 * a) b + 1

/-- The least `k` with `b ≤ a * 2 ^ k`, for `0 < a < b`. -/
def leadShift (a b : Nat) : Nat := leadShiftAux b a b

/-- The value of `Math.floor(a / b)` for integer-valued doubles `a` and
`b > 0`: the quotient is scaled so that its integer part has 53 binary digits,
rounded there, and scaled back; the floor of the result is taken. -/
def floorDiv (a b : Nat) : Nat :=
  if a = 0 then 0
  else if b ≤ a then
    if 53 ≤ bitLen (a / b) then
      roundHalfEven a (b * 2 ^ (bitLen (a / b) - 53)) * 2 ^ (bitLen (a / b) - 53)
    else roundHalfEven (a * 2 ^ (53 - bitLen (a / b))) b / 2 ^ (53 - bitLen (a / b))
  else roundHalfEven (a * 2 ^ (52 + leadShift a b)) b / 2 ^ (52 + leadShift a b)

/-- The number of decimal digits of `n`. -/
def decLen (n : Nat) : Nat := (toString n).length

/-- The integer with `k` significant decimal digits, followed by zeros, that
the double `x` is printed as, if there is one: of the two such integers around
`x`, one that reads back as `x`, and the nearer one (the even one of two equally
near) when both do. -/
def shortestAt (x k : Nat) : Option Nat :=
  let p := 10 ^ (decLen x - k)
  let lo := x / p * p
  let hi := lo + p
  if toDouble lo = x then
    if toDouble hi = x then
      if x - lo < hi - x then some lo
      else if hi - x < x - lo then some hi
      else if (x / p) % 2 = 0 then some lo
      else some hi
    else some lo
  else if toDouble hi = x then some hi
  else none

/-- The search for the least number of significant digits, from `k` on. -/
def shortestAux : Nat → Nat → Nat → Nat
  | 0, _, x => x
  | f + 1, k, x =>
    match shortestAt x k with
    | some v => v
    | none => shortestAux f (k + 1) x

/-- The integer whose decimal digits `Number::toString` prints for the double
`x`: the one with the fewest significant digits that reads back as `x`. -/
def shortest (x : Nat) : Nat := shortestAux (decLen x) 1 x

/-- The digits without their trailing zeros. -/
def stripZeros (cs : List Char) : List Char :=
  (cs.reverse.dropWhile (fun c => c = '0')).reverse

/-- The operation `Number::toString` on a non-negative integer-valued double:
below `2 ^ 53` every integer is a double and is printed exactly; beyond, the
shortest digits that read back are printed, followed by zeros up to 21 digits
and in exponent form above. -/
def numberToString (x : Nat) : String :=
  if x < 2 ^ 53 then toString x
  else if decLen (shortest x) ≤ 21 then toString (shortest x)
  else
    match stripZeros (toString (shortest x)).toList with
    | [] => "0"
    | [d] => String.mk [d] ++ "e+" ++ toString (decLen (shortest x) - 1)
    | d :: ds => String.mk (d :: '.' :: ds) ++ "e+" ++ toString (decLen (shortest x) - 1)

/-- The function `fmt` of line 226 on a non-negative integer-valued double `s`:
`Math.floor(s/60)` as a number in a template literal, a colon, and `s % 60`
converted by `toString()` and padded to two characters with `0`. -/
def fmt (s : Nat) : String :=
  numberToString (floorDiv s 60) ++ ":" ++ padStart (numberToString (s % 60)) 2 '0'

/-- The number a list of decimal digit characters stands for, read from the
left on top of the value `acc` read so far. -/
def readDigits (acc : Nat) (cs : List Char) : Nat :=
  cs.foldl (fun a c => 10 * a + (c.toNat - 48)) acc

/-! ## Predicates used in the statements -/

/-- Exactly one of `file` and `blob` is set. -/
def Draft.exactlyOne (d : Draft) : Prop :=
  (d.file ≠ none ∧ d.blob = none) ∨ (d.file = none ∧ d.blob ≠ none)

instance (d : Draft) : Decidable d.exactlyOne := by
  unfold Draft.exactlyOne; infer_instance

/-- The call is a blob upload. -/
def Call.isUpload : Call → Bool
  | .upload _ _ => true
  | _ => false

/-- The call is a table insert. -/
def Call.isInsert : Call → Bool
  | .insert _ => true
  | _ => false

/-- The call removes blobs from the store. -/
def Call.isRemove : Call → Bool
  | .remove _ => true
  | _ => false

/-- The row that `save` builds at lines 181-188 for a given key and body. -/
def rowOf (s : State) (env : SaveEnv) (userId key : String) (body : Payload) : Row :=
  { user_id := userId, title := s.newEntry.title, audio_url := env.publicUrl key,
    audio_filename := key, file_size := body.size, duration := s.time }

/-- The call is one of the selects of `loadData`. -/
def Call.isSelect : Call → Bool
  | .selectEntries => true
  | .selectPrompt => true
  | .selectProfile _ => true
  | _ => false

/-- The event edits the title, the tags or the chosen file. -/
def Event.isEdit : Event → Bool
  | .editTitle _ => true
  | .editTags _ => true
  | .chooseFile _ => true
  | _ => false

/-- The invariant behind mutual exclusion: the draft has at most one source,
and no snapshot of the draft held by a suspended `startRec` or by a recorder
callback has a file. -/
def SourcesInv (s : State) : Prop :=
  s.newEntry.exclusive ∧ (∀ d ∈ s.pendingMic, d.file = none) ∧
    (∀ rc ∈ s.recs, rc.snap.file = none)

instance (s : State) : Decidable (SourcesInv s) := by
  unfold SourcesInv; infer_instance

/-! ## Sample inputs -/

/-- A reply set in which every select returns nothing. -/
def quietLoad : LoadReplies := { entries := .data none, prompts := .data none, profile := .data none }

/-- A signed-in user on the "new entry" view with the given draft. -/
def draftState (d : Draft) : State :=
  { initState (some "u1") with view := .new, newEntry := d }

/-- A run of `save` at time 1700 in which both backend calls succeed. -/
def okEnv : SaveEnv :=
  { now := 1700, publicUrl := fun k => "https://cdn/" ++ k, upload := .ok, insert := .ok,
    load := quietLoad }

/-- A draft with a title and both a file and a blob. -/
def bothDraft : Draft :=
  { title := "t", tags := "", file := some { name := "a.mp3", size := 3 },
    blob := some { parts := [[1, 2]], type := "audio/webm" } }

/-- A draft with a title and no source. -/
def titleOnlyDraft : Draft := { emptyDraft with title := "t" }

/-- The clicks that start a recording, grant the microphone, deliver one chunk,
stop, and run the stop callback with the given fault. -/
def recordOnce (fault : Option String) : List Event :=
  [.openNew, .clickRecord, .micSettled 0 (.granted 1), .clickStop, .dataAvailable 0 [7, 7],
    .recStopped 0 fault]

/-- A 12-second recording titled "Morning thoughts", ready to be saved. -/
def morningState : State :=
  { draftState { title := "Morning thoughts", tags := "",
                 file := none, blob := some { parts := [[7, 7]], type := "audio/webm" } }
    with time := 12 }

/-- A run of `save` in which the upload resolves with an error. -/
def uploadErrEnv : SaveEnv := { okEnv with upload := .error "quota" }

/-- A run of `save` in which the upload succeeds and the insert rejects. -/
def insertErrEnv : SaveEnv := { okEnv with insert := .thrown "offline" }

/-- A signed-in user looking at one stored entry. -/
def playState : State :=
  { initState (some "u1") with
    view := .play,
    entries := [{ id := 7, user_id := "u1", title := "t", audio_url := "https://cdn/u1/5.webm",
                  audio_filename := "u1/5.webm", file_size := 2, duration := 3 }] }

/-- A confirmed deletion in which the blob removal rejects. -/
def removeThrowsEnv : DelEnv :=
  { confirmed := true, remove := .thrown "offline", deleteRow := .ok, load := quietLoad }

/-- A confirmed deletion in which the blob removal resolves with an error. -/
def removeErrEnv : DelEnv :=
  { confirmed := true, remove := .error "not found", deleteRow := .ok, load := quietLoad }

/-- Two clicks on the record button before the first `getUserMedia` settles,
then both promises resolve with a one-track stream. -/
def doubleStart : List Event :=
  [.openNew, .clickRecord, .clickRecord, .micSettled 0 (.granted 1), .micSettled 0 (.granted 1)]

/-- A click on the record button, then a file chosen while `getUserMedia` is
still pending, then the microphone granted with a one-track stream. -/
def fileWhilePending : List Event :=
  [.openNew, .clickRecord, .chooseFile (some { name := "a.mp3", size := 3 }),
    .micSettled 0 (.granted 1)]

/-- Two clicks on the record button; the first recording is granted, stopped
and staged as a blob before the second `getUserMedia` is granted. -/
def blobWhilePending : List Event :=
  [.openNew, .clickRecord, .clickRecord, .micSettled 0 (.granted 1), .clickStop,
    .dataAvailable 0 [7, 7], .recStopped 0 none, .micSettled 0 (.granted 1)]

/-! ## Theorems -/

/-- C1. A draft with an empty title, or with neither a file nor a blob, is
rejected by `save`: the state (draft, elapsed seconds, view, loading flag and
everything else) is returned as it was, and the only call made is the alert,
so nothing is uploaded and nothing is inserted. -/
theorem save_rejected_unchanged (s : State) (env : SaveEnv)
    (h : s.newEntry.title = "" ∨ (s.newEntry.file = none ∧ s.newEntry.blob = none)) :
    (save s env).1 = s ∧ (save s env).2 = [Call.alert "Add title and audio"] ∧
      ∀ c ∈ (save s env).2, c.isWrite = false := by
  have hr : saveRejects s.newEntry = true := by
    rcases h with h | ⟨hf, hb⟩
    · simp [saveRejects, h]
    · simp [saveRejects, hf, hb]
  simp [save, hr, Call.isWrite]

/-- C1 at a draft that has a title and no source. -/
theorem save_rejected_unchanged_witness :
    (save (draftState titleOnlyDraft) okEnv).1 = draftState titleOnlyDraft ∧
      (save (draftState titleOnlyDraft) okEnv).2 = [Call.alert "Add title and audio"] ∧
      ∀ c ∈ (save (draftState titleOnlyDraft) okEnv).2, c.isWrite = false :=
  save_rejected_unchanged (draftState titleOnlyDraft) okEnv (Or.inr ⟨rfl, rfl⟩)

/-- C2, as stated, fails: a draft with a title and both a file and a blob
passes the validation check of `save` and enables the Save button, although
it does not have exactly one source. -/
theorem save_guard_both_sources :
    saveRejects bothDraft = false ∧ saveDisabled (draftState bothDraft) = false ∧
      bothDraft.file ≠ none ∧ bothDraft.blob ≠ none ∧
      (save (draftState bothDraft) okEnv).2.head? =
        some (.upload "u1/1700.mp3" (some (.file { name := "a.mp3", size := 3 }))) := by
  decide

/-- C2, amended. `save` proceeds past its validation check iff the title is
non-empty and at least one of `file` and `blob` is set, and the Save button is
enabled, when not loading, under the same condition; on a draft with at most
one source this is: a non-empty title and exactly one source. -/
theorem save_guard_iff (s : State) :
    (saveRejects s.newEntry = false ↔
        s.newEntry.title ≠ "" ∧ (s.newEntry.file ≠ none ∨ s.newEntry.blob ≠ none)) ∧
      (saveDisabled s = false ↔
        s.loading = false ∧ s.newEntry.title ≠ "" ∧
          (s.newEntry.file ≠ none ∨ s.newEntry.blob ≠ none)) ∧
      (s.newEntry.exclusive →
        (saveRejects s.newEntry = false ↔ s.newEntry.title ≠ "" ∧ s.newEntry.exactlyOne)) := by
  rcases s with ⟨u, v, ir, ld, es, p, st, r, t, iv, ⟨ti, tg, f, b⟩, rs, pm, tm, nt⟩
  cases f <;> cases b <;> cases ld <;>
    simp [saveRejects, saveDisabled, Draft.exclusive, Draft.exactlyOne]

/-! ### Snapshots held by suspended handlers and recorder callbacks -/

/-- A property of every element of a list survives `List.modify` by a function
that preserves it. -/
theorem forall_mem_modify {α : Type} (P : α → Prop) (f : α → α) (hf : ∀ x, P x → P (f x)) :
    ∀ (l : List α) (n : Nat), (∀ x ∈ l, P x) → ∀ x ∈ l.modify f n, P x := by
  intro l
  induction l with
  | nil => intro n _ x hx; cases n <;> simp [List.modify] at hx
  | cons a t ih =>
    intro n h x hx
    cases n with
    | zero =>
      simp only [List.modify_zero_cons, List.mem_cons] at hx
      rcases hx with rfl | hx
      · exact hf _ (h a (List.mem_cons_self _ _))
      · exact h x (List.mem_cons_of_mem _ hx)
    | succ k =>
      simp only [List.modify_succ_cons, List.mem_cons] at hx
      rcases hx with rfl | hx
      · exact h _ (List.mem_cons_self _ _)
      · exact ih k (fun y hy => h y (List.mem_cons_of_mem _ hy)) x hx

/-- A modification of one recorder that keeps its snapshot keeps the files of
all snapshots unset. -/
theorem snapFile_modify (f : Recorder → Recorder) (hf : ∀ x, (f x).snap = x.snap)
    (l : List Recorder) (n : Nat) (h : ∀ rc ∈ l, rc.snap.file = none) :
    ∀ rc ∈ l.modify f n, rc.snap.file = none :=
  forall_mem_modify (fun rc : Recorder => rc.snap.file = none) f
    (fun x hx => by show (f x).snap.file = none; rw [hf x]; exact hx) l n h

theorem snap_stop (x : Recorder) : x.stop.snap = x.snap := by
  unfold Recorder.stop; split <;> rfl

theorem sourcesInv_init (user : Option String) : SourcesInv (initState user) := by
  simp [SourcesInv, initState, Draft.exclusive, emptyDraft]

theorem sourcesInv_step (s : State) (e : Event) (h : SourcesInv s) : SourcesInv (step s e) := by
  obtain ⟨hx, hp, hr⟩ := h
  cases e with
  | openNew =>
    simp only [step]; split
    · exact ⟨hx, hp, hr⟩
    · exact ⟨hx, hp, hr⟩
  | cancel =>
    simp only [step]; split
    · exact ⟨Or.inl rfl, hp, hr⟩
    · exact ⟨hx, hp, hr⟩
  | clickRecord =>
    simp only [step]; split
    · rename_i hg
      refine ⟨hx, ?_, hr⟩
      intro d hd
      simp only [startRecCall, List.mem_append, List.mem_singleton] at hd
      rcases hd with hd | rfl
      · exact hp d hd
      · simp only [recordEnabled, recordDisabled] at hg
        cases hf : s.newEntry.file with
        | none => rfl
        | some f => simp [hf] at hg
    · exact ⟨hx, hp, hr⟩
  | micSettled i r =>
    simp only [step, startRecResume]
    split
    · exact ⟨hx, hp, hr⟩
    · rename_i snap hs
      have hsnap : snap.file = none := hp snap (List.getElem?_mem hs)
      have hp2 : ∀ d ∈ s.pendingMic.eraseIdx i, d.file = none :=
        fun d hd => hp d (List.mem_of_mem_eraseIdx hd)
      cases r with
      | denied => exact ⟨hx, hp2, hr⟩
      | granted n =>
        refine ⟨hx, hp2, ?_⟩
        intro rc hrc
        simp only [List.mem_append, List.mem_singleton] at hrc
        rcases hrc with hrc | rfl
        · exact hr rc hrc
        · exact hsnap
  | dataAvailable r c =>
    simp only [step]
    split
    · split
      · exact ⟨hx, hp, snapFile_modify (fun rc => { rc with chunks := rc.chunks ++ [c] })
          (fun _ => rfl) _ r hr⟩
      · exact ⟨hx, hp, hr⟩
    · exact ⟨hx, hp, hr⟩
  | clickStop =>
    simp only [step]; split
    · simp only [stopRec]
      split
      · exact ⟨hx, hp, hr⟩
      · exact ⟨hx, hp, snapFile_modify Recorder.stop snap_stop _ _ hr⟩
    · exact ⟨hx, hp, hr⟩
  | recStopped r fault =>
    simp only [step]
    split
    · split
      · have hr1 : ∀ rc ∈ s.recs.modify (fun x => { x with stopQueued := false }) r,
            rc.snap.file = none :=
          snapFile_modify (fun x => { x with stopQueued := false }) (fun _ => rfl) _ r hr
        simp only [onstop]
        split
        · exact ⟨hx, hp, hr1⟩
        · rename_i rc1 hrc1
          cases fault with
          | some m => exact ⟨hx, hp, hr1⟩
          | none =>
            exact ⟨Or.inl (hr1 rc1 (List.getElem?_mem hrc1)), hp,
              snapFile_modify stopTracks (fun _ => rfl) _ r hr1⟩
      · exact ⟨hx, hp, hr⟩
    · exact ⟨hx, hp, hr⟩
  | chooseFile f =>
    simp only [step]; split
    · rename_i hg
      refine ⟨Or.inr ?_, hp, hr⟩
      cases hb : s.newEntry.blob with
      | none => simp [chooseFile, hb]
      | some b => simp [fileEnabled, fileDisabled, hb] at hg
    · exact ⟨hx, hp, hr⟩
  | editTitle t =>
    simp only [step]; split
    · exact ⟨hx, hp, hr⟩
    · exact ⟨hx, hp, hr⟩
  | editTags t =>
    simp only [step]; split
    · exact ⟨hx, hp, hr⟩
    · exact ⟨hx, hp, hr⟩
  | clickSave =>
    simp only [step]; split
    · exact ⟨hx, hp, hr⟩
    · exact ⟨hx, hp, hr⟩
  | saveInserted =>
    simp only [step]; split
    · exact ⟨Or.inl rfl, hp, hr⟩
    · exact ⟨hx, hp, hr⟩
  | saveSettled =>
    simp only [step]; split
    · exact ⟨hx, hp, hr⟩
    · exact ⟨hx, hp, hr⟩
  | entriesLoaded es => exact ⟨hx, hp, hr⟩
  | promptLoaded p => exact ⟨hx, hp, hr⟩
  | storageLoaded n => exact ⟨hx, hp, hr⟩
  | tick id =>
    simp only [step]; split
    · exact ⟨hx, hp, hr⟩
    · exact ⟨hx, hp, hr⟩

theorem sourcesInv_of_reachable (user : Option String) (s : State) (h : Reachable user s) :
    SourcesInv s := by
  induction h with
  | init => exact sourcesInv_init user
  | step s e _ ih => exact sourcesInv_step s e ih

theorem reachable_run (user : Option String) (es : List Event) :
    ∀ s, Reachable user s → Reachable user (run s es) := by
  induction es with
  | nil => intro s h; exact h
  | cons e t ih => intro s h; exact ih (step s e) (Reachable.step s e h)

/-- Mutual exclusion of the sources, the part of C3 that the code keeps. In
every state reachable from the first render by the events of the workflow (a
control that is disabled or not rendered firing nothing), the draft has at most
one of `file` and `blob`. Choosing a file while a blob is staged, and clicking
record while a file or a blob is staged, fire nothing: the state, and with it
the draft, is unchanged. -/
theorem sources_mutually_exclusive (user : Option String) (s : State)
    (h : Reachable user s) :
    s.newEntry.exclusive ∧
      (∀ f, s.newEntry.blob ≠ none → step s (.chooseFile f) = s) ∧
      ((s.newEntry.file ≠ none ∨ s.newEntry.blob ≠ none) → step s .clickRecord = s) := by
  refine ⟨(sourcesInv_of_reachable user s h).1, ?_, ?_⟩
  · intro f hb
    cases hb' : s.newEntry.blob with
    | none => exact absurd hb' hb
    | some b => simp [step, fileEnabled, fileDisabled, hb']
  · intro hfb
    have : recordDisabled s = true := by
      cases hf : s.newEntry.file <;> cases hb : s.newEntry.blob <;>
        simp_all [recordDisabled]
    simp [step, recordEnabled, this]

/-- Mutual exclusion at the state reached by recording once: a blob is staged,
there is no file, and both the file input and the record button fire nothing. -/
theorem sources_mutually_exclusive_witness :
    (run (initState (some "u1")) (recordOnce none)).newEntry.exclusive ∧
      (∀ f, (run (initState (some "u1")) (recordOnce none)).newEntry.blob ≠ none →
        step (run (initState (some "u1")) (recordOnce none)) (.chooseFile f) =
          run (initState (some "u1")) (recordOnce none)) ∧
      (((run (initState (some "u1")) (recordOnce none)).newEntry.file ≠ none ∨
          (run (initState (some "u1")) (recordOnce none)).newEntry.blob ≠ none) →
        step (run (initState (some "u1")) (recordOnce none)) .clickRecord =
          run (initState (some "u1")) (recordOnce none)) :=
  sources_mutually_exclusive (some "u1") (run (initState (some "u1")) (recordOnce none))
    (reachable_run (some "u1") (recordOnce none) _ Reachable.init)

/-- C3, the failing runs. A file chosen while `getUserMedia` is pending is
staged when `startRec` resumes: the recording starts with a file in the draft,
and the stop callback then replaces the draft by the snapshot of the click,
which drops the file. In the same way a second click before the grant lets a
recording start while the blob of the first one is staged, and its stop
callback replaces that blob. -/
theorem startRec_resumes_with_source_staged :
    (run (initState (some "u1")) fileWhilePending).isRecording = true ∧
      activeCaptures (run (initState (some "u1")) fileWhilePending) = 1 ∧
      (run (initState (some "u1")) fileWhilePending).newEntry.file =
        some { name := "a.mp3", size := 3 } ∧
      (run (initState (some "u1"))
          (fileWhilePending ++ [.clickStop, .dataAvailable 0 [7, 7], .recStopped 0 none])).newEntry =
        { emptyDraft with blob := some { parts := [[7, 7]], type := "audio/webm" } } ∧
      (run (initState (some "u1")) blobWhilePending).isRecording = true ∧
      activeCaptures (run (initState (some "u1")) blobWhilePending) = 1 ∧
      (run (initState (some "u1")) blobWhilePending).newEntry.blob =
        some { parts := [[7, 7]], type := "audio/webm" } ∧
      (run (initState (some "u1"))
          (blobWhilePending ++ [.clickStop, .dataAvailable 1 [9], .recStopped 1 none])).newEntry.blob =
        some { parts := [[9]], type := "audio/webm" } := by
  decide

/-! ### The calls made by `loadData` and `save` -/

theorem loadData_selects (s : State) (ld : LoadReplies) :
    ∀ c ∈ (loadData s ld).2, c.isSelect = true := by
  intro c hc
  unfold loadData at hc
  repeat' split at hc
  all_goals
    simp only [List.mem_cons, List.mem_singleton, List.not_mem_nil, or_false] at hc
    rcases hc with rfl | rfl | rfl <;> rfl

theorem loadData_calls (s : State) (ld : LoadReplies) :
    ∀ c ∈ (loadData s ld).2, c.isWrite = false := by
  intro c hc
  have := loadData_selects s ld c hc
  cases c <;> simp_all [Call.isSelect, Call.isWrite]

theorem not_write_kinds (c : Call) (h : c.isWrite = false) :
    c.isUpload = false ∧ c.isInsert = false ∧ c.isRemove = false := by
  cases c <;> simp_all [Call.isWrite, Call.isUpload, Call.isInsert, Call.isRemove]

theorem countP_loadData (s : State) (ld : LoadReplies) :
    (loadData s ld).2.countP Call.isUpload = 0 ∧ (loadData s ld).2.countP Call.isInsert = 0 ∧
      (loadData s ld).2.countP Call.isRemove = 0 := by
  refine ⟨?_, ?_, ?_⟩ <;> rw [List.countP_eq_zero] <;> intro c hc <;>
    simp [(not_write_kinds c (loadData_calls s ld c hc))]

/-- A draft that passes the validation check has something staged. -/
theorem staged_of_not_rejected (d : Draft) (h : saveRejects d = false) :
    ∃ body, staged d = some body := by
  rcases d with ⟨t, g, f, b⟩
  cases f <;> cases b <;> simp_all [saveRejects, staged]

/-- The calls of `save` when the upload fails: the upload and the alert. -/
theorem save_calls_upload_failed (s : State) (env : SaveEnv) (uid : String) (body : Payload)
    (hu : s.user = some uid) (hc : saveRejects s.newEntry = false)
    (hb : staged s.newEntry = some body) (hf : env.upload.failed = true) :
    ∃ m, (save s env).2 =
      [.upload (storageKey uid env.now s.newEntry) (some body), .alert ("Error: " ++ m)] := by
  cases hup : env.upload with
  | ok => simp [hup, Reply.failed] at hf
  | error m => exact ⟨m, by simp [save, hc, saveTry, hu, hup, hb]⟩
  | thrown m => exact ⟨m, by simp [save, hc, saveTry, hu, hup, hb]⟩

/-- The calls of `save` when the upload succeeds and the insert fails. -/
theorem save_calls_insert_failed (s : State) (env : SaveEnv) (uid : String) (body : Payload)
    (hu : s.user = some uid) (hc : saveRejects s.newEntry = false)
    (hb : staged s.newEntry = some body) (hup : env.upload = .ok)
    (hf : env.insert.failed = true) :
    ∃ m, (save s env).2 =
      [.upload (storageKey uid env.now s.newEntry) (some body),
       .getPublicUrl (storageKey uid env.now s.newEntry),
       .insert (rowOf s env uid (storageKey uid env.now s.newEntry) body),
       .alert ("Error: " ++ m)] := by
  cases hin : env.insert with
  | ok => simp [hin, Reply.failed] at hf
  | error m => exact ⟨m, by simp [save, hc, saveTry, hu, hup, hb, hin, rowOf]⟩
  | thrown m => exact ⟨m, by simp [save, hc, saveTry, hu, hup, hb, hin, rowOf]⟩

/-- The calls of `save` when the upload and the insert succeed. -/
theorem save_calls_ok (s : State) (env : SaveEnv) (uid : String) (body : Payload)
    (hu : s.user = some uid) (hc : saveRejects s.newEntry = false)
    (hb : staged s.newEntry = some body) (hup : env.upload = .ok) (hin : env.insert = .ok) :
    (save s env).2 =
      [.upload (storageKey uid env.now s.newEntry) (some body),
       .getPublicUrl (storageKey uid env.now s.newEntry),
       .insert (rowOf s env uid (storageKey uid env.now s.newEntry) body)] ++
        (loadData (saveCommitted { s with loading := true }) env.load).2 ++
        [.alert "Saved!"] := by
  simp [save, hc, saveTry, hu, hup, hb, hin, rowOf]

/-- C4. For a draft that passes validation and a signed-in user, `save` calls
`upload` once under the derived key. If the upload fails, the only further call
is the alert: no URL is resolved and no row is inserted. If it succeeds, the
next calls are `getPublicUrl` for the same key and one `insert` whose
`duration` is the elapsed-seconds counter; a failed insert is followed only by
the alert, a successful one by the selects of `loadData` and the alert. In
every case there is exactly one upload, at most one insert and no removal. -/
theorem save_call_sequence (s : State) (env : SaveEnv) (uid : String)
    (hu : s.user = some uid) (hc : saveRejects s.newEntry = false) :
    ∃ body, staged s.newEntry = some body ∧
      (env.upload.failed = true → ∃ m, (save s env).2 =
        [.upload (storageKey uid env.now s.newEntry) (some body), .alert ("Error: " ++ m)]) ∧
      (env.upload = .ok → env.insert.failed = true → ∃ m, (save s env).2 =
        [.upload (storageKey uid env.now s.newEntry) (some body),
         .getPublicUrl (storageKey uid env.now s.newEntry),
         .insert (rowOf s env uid (storageKey uid env.now s.newEntry) body),
         .alert ("Error: " ++ m)]) ∧
      (env.upload = .ok → env.insert = .ok → (save s env).2 =
        [.upload (storageKey uid env.now s.newEntry) (some body),
         .getPublicUrl (storageKey uid env.now s.newEntry),
         .insert (rowOf s env uid (storageKey uid env.now s.newEntry) body)] ++
          (loadData (saveCommitted { s with loading := true }) env.load).2 ++
          [.alert "Saved!"]) ∧
      (rowOf s env uid (storageKey uid env.now s.newEntry) body).duration = s.time ∧
      (save s env).2.countP Call.isUpload = 1 ∧
      (save s env).2.countP Call.isInsert ≤ 1 ∧
      (save s env).2.countP Call.isRemove = 0 := by
  obtain ⟨body, hb⟩ := staged_of_not_rejected s.newEntry hc
  obtain ⟨h1, h2, h3⟩ := countP_loadData (saveCommitted { s with loading := true }) env.load
  refine ⟨body, hb, save_calls_upload_failed s env uid body hu hc hb,
    save_calls_insert_failed s env uid body hu hc hb,
    save_calls_ok s env uid body hu hc hb, rfl, ?_, ?_, ?_⟩
  all_goals
    cases hup : env.upload with
    | ok =>
      cases hin : env.insert with
      | ok =>
        rw [save_calls_ok s env uid body hu hc hb hup hin]
        simp [List.countP_cons, List.countP_append, Call.isUpload, Call.isInsert,
          Call.isRemove, h1, h2, h3]
      | error m =>
        obtain ⟨m', hm⟩ := save_calls_insert_failed s env uid body hu hc hb hup
          (by simp [hin, Reply.failed])
        rw [hm]
        simp [List.countP_cons, Call.isUpload, Call.isInsert, Call.isRemove]
      | thrown m =>
        obtain ⟨m', hm⟩ := save_calls_insert_failed s env uid body hu hc hb hup
          (by simp [hin, Reply.failed])
        rw [hm]
        simp [List.countP_cons, Call.isUpload, Call.isInsert, Call.isRemove]
    | error m =>
      obtain ⟨m', hm⟩ := save_calls_upload_failed s env uid body hu hc hb
        (by simp [hup, Reply.failed])
      rw [hm]
      simp [List.countP_cons, Call.isUpload, Call.isInsert, Call.isRemove]
    | thrown m =>
      obtain ⟨m', hm⟩ := save_calls_upload_failed s env uid body hu hc hb
        (by simp [hup, Reply.failed])
      rw [hm]
      simp [List.countP_cons, Call.isUpload, Call.isInsert, Call.isRemove]

/-- C4 for the 12-second recording titled "Morning thoughts". -/
theorem save_call_sequence_witness :
    morningState.user = some "u1" ∧ saveRejects morningState.newEntry = false ∧
      ∃ body, staged morningState.newEntry = some body ∧
        (save morningState okEnv).2 =
          [.upload (storageKey "u1" okEnv.now morningState.newEntry) (some body),
           .getPublicUrl (storageKey "u1" okEnv.now morningState.newEntry),
           .insert (rowOf morningState okEnv "u1"
             (storageKey "u1" okEnv.now morningState.newEntry) body)] ++
            (loadData (saveCommitted { morningState with loading := true }) okEnv.load).2 ++
            [.alert "Saved!"] ∧
        (rowOf morningState okEnv "u1"
          (storageKey "u1" okEnv.now morningState.newEntry) body).duration = 12 ∧
        (save morningState okEnv).2.countP Call.isUpload = 1 ∧
        (save morningState okEnv).2.countP Call.isRemove = 0 :=
  ⟨rfl, rfl, (save_call_sequence morningState okEnv "u1" rfl rfl).imp fun _ h =>
    ⟨h.1, h.2.2.2.1 rfl rfl, h.2.2.2.2.1, h.2.2.2.2.2.1, h.2.2.2.2.2.2.2⟩⟩

/-- C5. When a draft passes validation and the upload fails, or the upload
succeeds and the insert fails, `save` returns the state it was called in with
`loading` false: title, tags, file, blob and the elapsed-seconds counter are
the ones before the call. -/
theorem save_failure_keeps_draft (s : State) (env : SaveEnv)
    (hc : saveRejects s.newEntry = false)
    (hf : env.upload.failed = true ∨ (env.upload = .ok ∧ env.insert.failed = true)) :
    (save s env).1 = { s with loading := false } ∧
      (save s env).1.newEntry = s.newEntry ∧ (save s env).1.time = s.time ∧
      (save s env).1.loading = false := by
  have key : (save s env).1 = { s with loading := false } := by
    rcases hf with hf | ⟨hup, hf⟩
    · cases hup : env.upload with
      | ok => simp [hup, Reply.failed] at hf
      | error m => cases hu : s.user <;> simp [save, hc, saveTry, hu, hup]
      | thrown m => cases hu : s.user <;> simp [save, hc, saveTry, hu, hup]
    · cases hin : env.insert with
      | ok => simp [hin, Reply.failed] at hf
      | error m =>
        cases hu : s.user <;> cases hb : staged s.newEntry <;>
          simp [save, hc, saveTry, hu, hup, hb, hin]
      | thrown m =>
        cases hu : s.user <;> cases hb : staged s.newEntry <;>
          simp [save, hc, saveTry, hu, hup, hb, hin]
  rw [key]
  exact ⟨rfl, rfl, rfl, rfl⟩

/-- C5 for the "Morning thoughts" recording when the insert rejects. -/
theorem save_failure_keeps_draft_witness :
    saveRejects morningState.newEntry = false ∧ insertErrEnv.insert.failed = true ∧
      (save morningState insertErrEnv).1 = { morningState with loading := false } ∧
      (save morningState insertErrEnv).1.newEntry = morningState.newEntry ∧
      (save morningState insertErrEnv).1.time = morningState.time ∧
      (save morningState insertErrEnv).1.loading = false :=
  ⟨rfl, rfl, save_failure_keeps_draft morningState insertErrEnv rfl (Or.inr ⟨rfl, rfl⟩)⟩

/-! ### The extension taken from a file name -/

theorem splitChars_of_not_mem (sep : Char) :
    ∀ l : List Char, sep ∉ l → splitChars sep l = [l] := by
  intro l
  induction l with
  | nil => intro _; rfl
  | cons c t ih =>
    intro h
    have hc : c ≠ sep := fun e => h (e ▸ List.mem_cons_self _ _)
    have ht : sep ∉ t := fun m => h (List.mem_cons_of_mem _ m)
    simp [splitChars, hc, ih ht]

theorem splitChars_ne_nil (sep : Char) : ∀ l : List Char, splitChars sep l ≠ [] := by
  intro l
  induction l with
  | nil => simp [splitChars]
  | cons c t ih =>
    unfold splitChars
    split
    · simp
    · split <;> simp

theorem splitChars_append_sep (sep : Char) (rest : List Char) :
    ∀ pre : List Char, ∃ x xs, splitChars sep (pre ++ sep :: rest) = x :: xs ∧ xs ≠ [] ∧
      xs.getLast? = (splitChars sep rest).getLast? := by
  intro pre
  induction pre with
  | nil => exact ⟨[], splitChars sep rest, by simp [splitChars], splitChars_ne_nil sep rest, rfl⟩
  | cons c t ih =>
    obtain ⟨x, xs, hx, hne, hl⟩ := ih
    by_cases hc : c = sep
    · refine ⟨[], x :: xs, by simp [splitChars, hc, hx], by simp, ?_⟩
      rw [← hl]
      cases xs with
      | nil => exact absurd rfl hne
      | cons y ys => simp [List.getLast?_cons_cons]
    · exact ⟨c :: x, xs, by simp [splitChars, hc, hx], hne, hl⟩

theorem extOf_no_dot (name : String) (h : '.' ∉ name.toList) : extOf name = name := by
  unfold extOf
  rw [splitChars_of_not_mem '.' name.toList h]
  rfl

theorem extOf_after_last_dot (pre suf : List Char) (h : '.' ∉ suf) :
    extOf (String.mk (pre ++ '.' :: suf)) = String.mk suf := by
  obtain ⟨x, xs, hx, hne, hl⟩ := splitChars_append_sep '.' suf pre
  have hlast : (splitChars '.' (pre ++ '.' :: suf)).getLast? = some suf := by
    rw [hx]
    cases xs with
    | nil => exact absurd rfl hne
    | cons y ys =>
      rw [List.getLast?_cons_cons, hl, splitChars_of_not_mem '.' suf h]
      rfl
  unfold extOf
  show (match (splitChars '.' (pre ++ '.' :: suf)).getLast? with
    | some cs => String.mk cs
    | none => "undefined") = String.mk suf
  rw [hlast]

/-- C6. The key built by `save` is the user id, `/`, the timestamp in decimal,
`.`, and an extension: that of the file name when a file is staged, `webm`
when none is. The extension of a name is the name itself when it has no `.`,
and the text after its last `.` otherwise. For a draft that passes validation
the first call is the upload under this key, and when the upload succeeds the
next two are `getPublicUrl` of the same key and the insert of a row whose
`audio_filename` is the same key. -/
theorem storage_key_derivation (uid : String) (now : Nat) (d : Draft) :
    (∀ f, d.file = some f →
        storageKey uid now d = uid ++ "/" ++ toString now ++ "." ++ extOf f.name) ∧
      (d.file = none → storageKey uid now d = uid ++ "/" ++ toString now ++ "." ++ "webm") ∧
      (∀ name : String, '.' ∉ name.toList → extOf name = name) ∧
      (∀ pre suf : List Char, '.' ∉ suf →
        extOf (String.mk (pre ++ '.' :: suf)) = String.mk suf) ∧
      (∀ (s : State) (env : SaveEnv), s.user = some uid → s.newEntry = d → env.now = now →
        saveRejects d = false →
        ∃ body, (save s env).2.head? = some (.upload (storageKey uid now d) (some body)) ∧
          (rowOf s env uid (storageKey uid now d) body).audio_filename = storageKey uid now d ∧
          (env.upload = .ok → ∃ rest, (save s env).2 =
            .upload (storageKey uid now d) (some body) :: .getPublicUrl (storageKey uid now d) ::
              .insert (rowOf s env uid (storageKey uid now d) body) :: rest)) := by
  refine ⟨?_, ?_, extOf_no_dot, extOf_after_last_dot, ?_⟩
  · intro f hf; simp [storageKey, hf]
  · intro hf; simp [storageKey, hf]
  · intro s env hu hd hn hc
    subst hd hn
    obtain ⟨body, hb⟩ := staged_of_not_rejected s.newEntry hc
    have h1 := save_calls_upload_failed s env uid body hu hc hb
    have h2 := save_calls_insert_failed s env uid body hu hc hb
    have h3 := save_calls_ok s env uid body hu hc hb
    refine ⟨body, ?_, rfl, ?_⟩
    · cases hup : env.upload with
      | ok =>
        cases hin : env.insert with
        | ok => rw [h3 hup hin]; rfl
        | error m => obtain ⟨m', hm⟩ := h2 hup (by simp [hin, Reply.failed]); rw [hm]; rfl
        | thrown m => obtain ⟨m', hm⟩ := h2 hup (by simp [hin, Reply.failed]); rw [hm]; rfl
      | error m => obtain ⟨m', hm⟩ := h1 (by simp [hup, Reply.failed]); rw [hm]; rfl
      | thrown m => obtain ⟨m', hm⟩ := h1 (by simp [hup, Reply.failed]); rw [hm]; rfl
    · intro hup
      cases hin : env.insert with
      | ok => exact ⟨_, by rw [h3 hup hin]; rfl⟩
      | error m => obtain ⟨m', hm⟩ := h2 hup (by simp [hin, Reply.failed]); exact ⟨_, hm⟩
      | thrown m => obtain ⟨m', hm⟩ := h2 hup (by simp [hin, Reply.failed]); exact ⟨_, hm⟩

/-- C6 for the file name `x.tar.gz`: the extension is `gz`. -/
theorem storage_key_derivation_witness :
    extOf (String.mk (['x', '.', 't', 'a', 'r'] ++ '.' :: ['g', 'z'])) = String.mk ['g', 'z'] :=
  (storage_key_derivation "u1" 1700 emptyDraft).2.2.2.1 ['x', '.', 't', 'a', 'r'] ['g', 'z']
    (by decide)

/-- C7, as stated, fails: when the blob removal rejects, `del` does not attempt
the row delete, and it reports a failure although the row delete did not fail. -/
theorem del_remove_rejects_skips_row :
    removeThrowsEnv.confirmed = true ∧ removeThrowsEnv.remove.failed = true ∧
      removeThrowsEnv.deleteRow = .ok ∧
      (del playState 7 removeThrowsEnv).2 =
        [.confirm "Delete?", .remove ["u1/5.webm"], .alert "Error deleting entry"] := by
  decide

/-- C7, amended. For a confirmed deletion of a listed entry whose blob removal
resolves with an error, `del` goes on to the row delete, and it alerts a
failure exactly when the row delete rejects; so a failure is reported only if
the row delete failed too. -/
theorem del_best_effort (s : State) (id : Nat) (env : DelEnv) (entry : Entry) (m : String)
    (hc : env.confirmed = true)
    (he : s.entries.find? (fun x => x.id == id) = some entry)
    (hr : env.remove = .error m) :
    (∃ rest, (del s id env).2 =
        .confirm "Delete?" :: .remove [entry.audio_filename] :: .deleteRow id :: rest) ∧
      (Call.alert "Error deleting entry" ∈ (del s id env).2 ↔ ∃ m', env.deleteRow = .thrown m') ∧
      (Call.alert "Error deleting entry" ∈ (del s id env).2 → env.deleteRow.failed = true) := by
  have hno : Call.alert "Error deleting entry" ∉ (loadData s env.load).2 := fun hm => by
    simpa [Call.isSelect] using loadData_selects s env.load _ hm
  cases hd : env.deleteRow with
  | ok => simp [del, hc, delTry, he, hr, hd, hno]
  | error m' => simp [del, hc, delTry, he, hr, hd, hno, Reply.failed]
  | thrown m' => simp [del, hc, delTry, he, hr, hd, Reply.failed]

/-- C7, amended, for the entry with id 7 when the removal resolves with an error. -/
theorem del_best_effort_witness :
    (∃ rest, (del playState 7 removeErrEnv).2 =
        .confirm "Delete?" :: .remove ["u1/5.webm"] :: .deleteRow 7 :: rest) ∧
      (Call.alert "Error deleting entry" ∈ (del playState 7 removeErrEnv).2 ↔
        ∃ m', removeErrEnv.deleteRow = .thrown m') ∧
      (Call.alert "Error deleting entry" ∈ (del playState 7 removeErrEnv).2 →
        removeErrEnv.deleteRow.failed = true) :=
  del_best_effort playState 7 removeErrEnv
    { id := 7, user_id := "u1", title := "t", audio_url := "https://cdn/u1/5.webm",
      audio_filename := "u1/5.webm", file_size := 2, duration := 3 } "not found" rfl rfl rfl

/-! ### Recording: start, stop and the stop callback -/

/-- While `isRecording` is set the record button is not rendered: a click on it
fires nothing, so no stream is requested and no recorder is created. -/
theorem clickRecord_while_recording (s : State) (h : s.isRecording = true) :
    step s .clickRecord = s := by
  simp [step, recordEnabled, h]

/-- C8, the failing run. After one click on the record button `isRecording` is
still false and the button is still enabled; a second click before the
microphone is granted starts a second `startRec`. When both resume, two
recorders are recording and two intervals tick. Stop then stops the recorder
held in `recorder` only: one capture stays active with the Stop button gone. -/
theorem startRec_twice_before_grant :
    (run (initState (some "u1")) [.openNew, .clickRecord]).isRecording = false ∧
      recordEnabled (run (initState (some "u1")) [.openNew, .clickRecord]) = true ∧
      activeCaptures (run (initState (some "u1")) doubleStart) = 2 ∧
      (run (initState (some "u1")) doubleStart).timers = [0, 1] ∧
      activeCaptures (run (initState (some "u1")) (doubleStart ++ [.clickStop])) = 1 ∧
      stopShown (run (initState (some "u1")) (doubleStart ++ [.clickStop])) = false ∧
      (run (initState (some "u1")) (doubleStart ++ [.clickStop, .recStopped 1 none])).recs.map
        (fun rc => rc.tracks) = [[{ stopped := false }], [{ stopped := true }]] := by
  decide

/-- C9, as stated, fails: when building or staging the blob raises an error,
the stop callback ends before line 137 and the track of the stream is still
live after the callback has run. -/
theorem onstop_fault_leaves_track_live :
    (run (initState (some "u1")) (recordOnce (some "out of memory"))).recs =
      [{ tracks := [{ stopped := false }], chunks := [[7, 7]], state := .inactive,
         stopQueued := false, snap := emptyDraft }] := by
  decide

/-- C9, amended. For a recorder whose stop event is queued, once the stop
callback has run without an error in building and staging the blob, every track
of the stream acquired for that recorder is stopped. -/
theorem onstop_releases_stream (s : State) (r : Nat) (rc : Recorder)
    (h : s.recs[r]? = some rc) (hq : rc.stopQueued = true) :
    ∃ rc', (step s (.recStopped r none)).recs[r]? = some rc' ∧
      rc'.tracks.length = rc.tracks.length ∧ ∀ t ∈ rc'.tracks, t.stopped = true := by
  refine ⟨stopTracks { rc with stopQueued := false }, ?_, ?_, ?_⟩
  · simp [step, h, hq, onstop, List.getElem?_modify_eq]
  · simp [stopTracks]
  · intro t ht
    simp only [stopTracks, List.mem_map] at ht
    obtain ⟨_, _, rfl⟩ := ht
    rfl

/-- C9, amended, for the recorder of a recording that has just been stopped. -/
theorem onstop_releases_stream_witness :
    ∃ rc', (step (run (initState (some "u1"))
        [.openNew, .clickRecord, .micSettled 0 (.granted 1), .clickStop])
        (.recStopped 0 none)).recs[0]? = some rc' ∧
      rc'.tracks.length =
        (Recorder.mk [{ stopped := false }] [] .inactive true emptyDraft).tracks.length ∧
      ∀ t ∈ rc'.tracks, t.stopped = true :=
  onstop_releases_stream
    (run (initState (some "u1")) [.openNew, .clickRecord, .micSettled 0 (.granted 1), .clickStop])
    0 (Recorder.mk [{ stopped := false }] [] .inactive true emptyDraft) (by decide) rfl

theorem run_cons (s : State) (e : Event) (es : List Event) :
    run s (e :: es) = run (step s e) es := rfl

theorem run_append (s : State) (as bs : List Event) :
    run s (as ++ bs) = run (run s as) bs := by
  simp [run, List.foldl_append]

/-- An edit of the title, the tags or the file changes nothing but the draft. -/
theorem edit_frame (s : State) (e : Event) (he : e.isEdit = true) :
    ∃ d, step s e = { s with newEntry := d } := by
  cases e <;> simp [Event.isEdit] at he
  · simp only [step]; split
    · exact ⟨_, rfl⟩
    · exact ⟨s.newEntry, rfl⟩
  · simp only [step]; split
    · exact ⟨_, rfl⟩
    · exact ⟨s.newEntry, rfl⟩
  · simp only [step]; split
    · exact ⟨_, rfl⟩
    · exact ⟨s.newEntry, rfl⟩

theorem edits_frame (es : List Event) :
    ∀ s : State, (∀ e ∈ es, e.isEdit = true) → ∃ d, run s es = { s with newEntry := d } := by
  induction es with
  | nil => intro s _; exact ⟨s.newEntry, rfl⟩
  | cons e t ih =>
    intro s h
    obtain ⟨d, hd⟩ := edit_frame s e (h e (List.mem_cons_self _ _))
    obtain ⟨d', hd'⟩ := ih (step s e) (fun x hx => h x (List.mem_cons_of_mem _ hx))
    exact ⟨d', by rw [run_cons, hd', hd]⟩

/-- What the resumption of a granted `startRec` leaves: the recorder it created
is the last one, is recording, and holds the snapshot of the suspended call. -/
theorem micSettled_granted (st : State) (i n : Nat) (snap : Draft)
    (h : st.pendingMic[i]? = some snap) :
    (step st (.micSettled i (.granted n))).user = st.user ∧
      (step st (.micSettled i (.granted n))).view = st.view ∧
      (step st (.micSettled i (.granted n))).isRecording = true ∧
      (step st (.micSettled i (.granted n))).recorder = some st.recs.length ∧
      (step st (.micSettled i (.granted n))).recs = st.recs ++
        [{ tracks := List.replicate n { stopped := false }, chunks := [], state := .recording,
           stopQueued := false, snap := snap }] := by
  simp [step, startRecResume, h]

/-- C10. Start a recording from a state in which the record button is enabled,
and let any edits of title, tags and file happen while `getUserMedia` is
pending, while recording, and between Stop and the stop callback. After the
callback the draft is the draft of the moment the record button was clicked,
with `blob` set to the recorded audio: the edits are gone. -/
theorem onstop_restores_snapshot (s : State) (es1 es2 es3 : List Event) (n : Nat) (c : Chunk)
    (hen : recordEnabled s = true)
    (h1 : ∀ e ∈ es1, e.isEdit = true) (h2 : ∀ e ∈ es2, e.isEdit = true)
    (h3 : ∀ e ∈ es3, e.isEdit = true) :
    (run s (.clickRecord :: es1 ++ .micSettled s.pendingMic.length (.granted n) :: es2 ++
        .clickStop :: es3 ++
        [.dataAvailable s.recs.length c, .recStopped s.recs.length none])).newEntry =
      { s.newEntry with blob := some { parts := [c], type := "audio/webm" } } := by
  have hshown : newShown s = true := by
    simp only [recordEnabled, Bool.and_eq_true] at hen
    exact hen.1.1
  simp only [run_append, run_cons]
  rw [show step s .clickRecord = startRecCall s by simp [step, hen]]
  obtain ⟨d1, hd1⟩ := edits_frame es1 (startRecCall s) h1
  rw [hd1]
  have e3 := micSettled_granted { startRecCall s with newEntry := d1 } s.pendingMic.length n
    s.newEntry (by simp [startRecCall])
  generalize step { startRecCall s with newEntry := d1 }
    (.micSettled s.pendingMic.length (.granted n)) = st3 at e3 ⊢
  obtain ⟨hu3, hv3, hi3, hr3, hrecs3⟩ := e3
  simp only [startRecCall] at hu3 hv3 hr3 hrecs3
  obtain ⟨d2, hd2⟩ := edits_frame es2 st3 h2
  rw [hd2]
  have hs3 : newShown st3 = true := by
    simpa [newShown, mainShown, hu3, hv3] using hshown
  have e5 : step { st3 with newEntry := d2 } .clickStop =
      { st3 with newEntry := d2, recs := st3.recs.modify Recorder.stop s.recs.length,
                 isRecording := false, timers := clearInterval st3.timers st3.interval } := by
    have : stopShown { st3 with newEntry := d2 } = true := by
      simpa [stopShown, newShown, mainShown, hi3] using hs3
    simp only [step, this, if_true]
    simp [stopRec, hr3]
  rw [e5]
  obtain ⟨d3, hd3⟩ := edits_frame es3 _ h3
  rw [hd3]
  simp [run, step, onstop, hrecs3, List.getElem?_modify_eq, Recorder.stop, stopTracks,
    ondataavailable]

/-- C10 for a recording started on an empty draft: the title typed while
recording and the file chosen after Stop are gone once the callback has run. -/
theorem onstop_restores_snapshot_witness :
    (run (draftState emptyDraft)
        (.clickRecord :: [] ++
          .micSettled (draftState emptyDraft).pendingMic.length (.granted 1) ::
            [.editTitle "Morning thoughts"] ++
          .clickStop :: [.chooseFile (some { name := "a.mp3", size := 3 })] ++
          [.dataAvailable (draftState emptyDraft).recs.length [7, 7],
           .recStopped (draftState emptyDraft).recs.length none])).newEntry =
      { (draftState emptyDraft).newEntry with
        blob := some { parts := [[7, 7]], type := "audio/webm" } } :=
  onstop_restores_snapshot (draftState emptyDraft) [] [.editTitle "Morning thoughts"]
    [.chooseFile (some { name := "a.mp3", size := 3 })] 1 [7, 7] (by decide)
    (by decide) (by decide) (by decide)

/-! ### The rendering of a duration -/

theorem digitChar_value (k : Nat) (h : k < 10) : (Nat.digitChar k).toNat - 48 = k := by
  interval_cases k <;> rfl

/-- Reading back the digits produced with enough fuel gives the number, on top
of whatever digits were already produced. -/
theorem readDigits_toDigitsCore :
    ∀ (fuel n : Nat) (ds : List Char), n < fuel →
      readDigits 0 (Nat.toDigitsCore 10 fuel n ds) = readDigits n ds := by
  intro fuel
  induction fuel with
  | zero => intro n ds h; omega
  | succ f ih =>
    intro n ds h
    have hd : (Nat.digitChar (n % 10)).toNat - 48 = n % 10 :=
      digitChar_value (n % 10) (Nat.mod_lt _ (by decide))
    unfold Nat.toDigitsCore
    by_cases h0 : n / 10 = 0
    · have hn : n % 10 = n := Nat.mod_eq_of_lt (by omega)
      simp only [h0, if_true]
      simp only [readDigits, List.foldl_cons]
      rw [hd, hn, Nat.mul_zero, Nat.zero_add]
    · simp only [h0, if_false]
      rw [ih (n / 10) _ (by omega)]
      simp only [readDigits, List.foldl_cons, hd]
      congr 1
      omega

/-- The decimal rendering of a natural number reads back as the number. -/
theorem readDigits_toString (n : Nat) : readDigits 0 (toString n).toList = n := by
  show readDigits 0 (Nat.toDigitsCore 10 (n + 1) n []) = n
  rw [readDigits_toDigitsCore (n + 1) n [] (Nat.lt_succ_self n)]
  rfl

theorem toString_nat_injective (a b : Nat) (h : toString a = toString b) : a = b := by
  rw [← readDigits_toString a, ← readDigits_toString b, h]

/-- Below 60 the padded rendering is the tens digit followed by the units digit. -/
theorem padStart_two_digits (r : Nat) (h : r < 60) :
    padStart (toString r) 2 '0' = String.mk [Nat.digitChar (r / 10), Nat.digitChar (r % 10)] := by
  interval_cases r <;> rfl

theorem two_digits_injective (a b : Nat) (ha : a < 60) (hb : b < 60)
    (h : [Nat.digitChar (a / 10), Nat.digitChar (a % 10)] =
      [Nat.digitChar (b / 10), Nat.digitChar (b % 10)]) : a = b := by
  simp only [List.cons.injEq, and_true] at h
  have h1 := congrArg (fun c : Char => c.toNat - 48) h.1
  have h2 := congrArg (fun c : Char => c.toNat - 48) h.2
  simp only at h1 h2
  rw [digitChar_value _ (by omega), digitChar_value _ (by omega)] at h1
  rw [digitChar_value _ (Nat.mod_lt _ (by decide)),
    digitChar_value _ (Nat.mod_lt _ (by decide))] at h2
  omega

theorem bitsAux_le : ∀ (f n k : Nat), n < 2 ^ k → bitsAux f n ≤ k := by
  intro f
  induction f with
  | zero => intro n k _; simp [bitsAux]
  | succ f ih =>
    intro n k h
    unfold bitsAux
    split
    · exact Nat.zero_le _
    · rename_i hn
      cases k with
      | zero => simp at h; exact absurd h hn
      | succ k =>
        have : n / 2 < 2 ^ k := by
          rw [Nat.pow_succ] at h
          omega
        exact Nat.succ_le_succ (ih (n / 2) k this)

theorem floorDiv_below_sixty : ∀ s, s < 60 → floorDiv s 60 = 0 := by
  decide

/-- With at least five binary digits after the point, rounding the quotient by
60 does not reach the next integer. -/
theorem roundHalfEven_scaled (s L : Nat) (hL : L ≤ 48) :
    roundHalfEven (s * 2 ^ (53 - L)) 60 / 2 ^ (53 - L) = s / 60 := by
  unfold roundHalfEven
  interval_cases L <;> norm_num <;> split_ifs <;> omega

/-- Below `2 ^ 53` the double computation of `Math.floor(s/60)` is exact. -/
theorem floorDiv_sixty (s : Nat) (hs : s < 2 ^ 53) : floorDiv s 60 = s / 60 := by
  by_cases h60 : s < 60
  · rw [floorDiv_below_sixty s h60]; omega
  · have hL : bitLen (s / 60) ≤ 48 := by
      apply bitsAux_le
      norm_num at hs ⊢
      omega
    have h0 : s ≠ 0 := by omega
    have hle : 60 ≤ s := by omega
    have h53 : ¬ 53 ≤ bitLen (s / 60) := by omega
    unfold floorDiv
    rw [if_neg h0, if_pos hle, if_neg h53]
    exact roundHalfEven_scaled s _ hL

theorem numberToString_small (m : Nat) (h : m < 2 ^ 53) : numberToString m = toString m := by
  unfold numberToString
  rw [if_pos h]

theorem fmt_eq (s : Nat) (hs : s < 2 ^ 53) :
    fmt s = toString (s / 60) ++ ":" ++
      String.mk [Nat.digitChar (s % 60 / 10), Nat.digitChar (s % 60 % 10)] := by
  have hm : s / 60 < 2 ^ 53 := lt_of_le_of_lt (Nat.div_le_self _ _) hs
  have hr : s % 60 < 2 ^ 53 := lt_of_le_of_lt (Nat.mod_le _ _) hs
  unfold fmt
  rw [floorDiv_sixty s hs, numberToString_small _ hm, numberToString_small _ hr,
    padStart_two_digits (s % 60) (Nat.mod_lt _ (by decide))]

theorem fmt_injective (s t : Nat) (hs : s < 2 ^ 53) (ht : t < 2 ^ 53) (h : fmt s = fmt t) :
    s = t := by
  rw [fmt_eq s hs, fmt_eq t ht] at h
  have hl := congrArg String.toList h
  simp only [String.toList, String.data_append] at hl
  rw [List.append_assoc, List.append_assoc] at hl
  obtain ⟨hm, hsec'⟩ := List.append_inj' hl (by simp)
  have hmin : s / 60 = t / 60 := toString_nat_injective _ _ (String.ext hm)
  have hsec : s % 60 = t % 60 := by
    apply two_digits_injective _ _ (Nat.mod_lt _ (by decide)) (Nat.mod_lt _ (by decide))
    simpa using hsec'
  omega

/-- C11, as stated, fails: line 226 computes on doubles. At the integer
`2 ^ 56 + 160`, which is a double, `s / 60` rounds up to the next integer, so
the minutes field is one more than the floor of the quotient and 60 times the
minutes plus the seconds is not `s`; at `10 ^ 21` the minutes are rounded to a
multiple of 2048 and printed with 17 significant digits. -/
theorem fmt_large_minutes_rounded :
    toDouble 72057594037928096 = 72057594037928096 ∧
      fmt 72057594037928096 = "1200959900632135:56" ∧
      72057594037928096 / 60 = 1200959900632134 ∧
      60 * floorDiv 72057594037928096 60 + 72057594037928096 % 60 = 72057594037928156 ∧
      toDouble (10 ^ 21) = 10 ^ 21 ∧
      fmt (10 ^ 21) = "16666666666666666000:40" ∧
      10 ^ 21 / 60 = 16666666666666666666 := by
  decide

/-- C11, amended. For every number of seconds `s` below `2 ^ 53`, `fmt s` is the
decimal rendering of `s / 60`, a colon, and the two decimal digits of `s % 60`
(tens, then units, so zero-padded below ten). The minutes computed on doubles
are `s / 60`, the seconds field is below 60, 60 times the minutes plus the
seconds is `s`, both fields read back as numbers, and `fmt` is injective on the
numbers below `2 ^ 53`; it gives `0:00`, `0:12` and `2:05` at 0, 12 and 125. -/
theorem fmt_minutes_seconds (s : Nat) (hs : s < 2 ^ 53) :
    fmt s = toString (s / 60) ++ ":" ++
        String.mk [Nat.digitChar (s % 60 / 10), Nat.digitChar (s % 60 % 10)] ∧
      floorDiv s 60 = s / 60 ∧
      (padStart (numberToString (s % 60)) 2 '0').length = 2 ∧
      readDigits 0 (numberToString (floorDiv s 60)).toList = s / 60 ∧
      readDigits 0 (padStart (numberToString (s % 60)) 2 '0').toList = s % 60 ∧
      s % 60 < 60 ∧ 60 * floorDiv s 60 + s % 60 = s ∧
      (∀ t, t < 2 ^ 53 → fmt s = fmt t → s = t) ∧
      fmt 0 = "0:00" ∧ fmt 12 = "0:12" ∧ fmt 125 = "2:05" := by
  have hlt : s % 60 < 60 := Nat.mod_lt _ (by decide)
  have hm : s / 60 < 2 ^ 53 := lt_of_le_of_lt (Nat.div_le_self _ _) hs
  have hr : s % 60 < 2 ^ 53 := lt_of_le_of_lt (Nat.mod_le _ _) hs
  have hfd := floorDiv_sixty s hs
  refine ⟨fmt_eq s hs, hfd, ?_, ?_, ?_, hlt, by rw [hfd]; omega,
    fun t ht h => fmt_injective s t hs ht h, by decide, by decide, by decide⟩
  · rw [numberToString_small _ hr, padStart_two_digits _ hlt]; rfl
  · rw [hfd, numberToString_small _ hm]; exact readDigits_toString _
  · rw [numberToString_small _ hr, padStart_two_digits _ hlt]
    show readDigits 0 [Nat.digitChar (s % 60 / 10), Nat.digitChar (s % 60 % 10)] = s % 60
    simp only [readDigits, List.foldl_cons, List.foldl_nil]
    rw [digitChar_value _ (by omega), digitChar_value _ (Nat.mod_lt _ (by decide))]
    omega

/-- C11, amended, at 125 seconds. -/
theorem fmt_minutes_seconds_witness :
    125 < 2 ^ 53 ∧ fmt 125 = toString (125 / 60) ++ ":" ++
        String.mk [Nat.digitChar (125 % 60 / 10), Nat.digitChar (125 % 60 % 10)] ∧
      floorDiv 125 60 = 125 / 60 ∧ 60 * floorDiv 125 60 + 125 % 60 = 125 ∧
      (∀ t, t < 2 ^ 53 → fmt 125 = fmt t → 125 = t) :=
  ⟨by decide, (fmt_minutes_seconds 125 (by decide)).1, (fmt_minutes_seconds 125 (by decide)).2.1,
    (fmt_minutes_seconds 125 (by decide)).2.2.2.2.2.2.1,
    (fmt_minutes_seconds 125 (by decide)).2.2.2.2.2.2.2.1⟩

end VoiceVault
